import Mathlib

/-!
Verification of the solidity LSP core (`libsolidity/lsp/LanguageServer.cpp`,
`libsolidity/lsp/Transport.cpp`) against its natural-language specification.

The C++ code is shallowly embedded: JSON values (the jsoncpp `Json::Value`
type) become the inductive `Json`, object members are kept as a key-sorted
association list (jsoncpp stores object members in a `std::map`, iterated in
sorted key order), strings are Lean `String`s treated as byte sequences
(one byte per character, as the spec's position-translation unit), and C++
exceptions become explicit `Option`/error components threaded through the
handler results.
-/

namespace SolLsp

/-- Shallow embedding of jsoncpp `Json::Value`.  Integral and unsigned
values are merged into one `num` constructor over `Int`; floating-point
values do not occur in this code base.  Object members are a key-sorted
association list mirroring the `std::map` inside jsoncpp. -/
inductive Json where
  | null
  | bool (b : Bool)
  | num (n : Int)
  | str (s : String)
  | arr (elems : List Json)
  | obj (fields : List (String × Json))
deriving Inhabited

namespace Json

/-- Plain association-list lookup among object fields. -/
def lookupField : List (String × Json) → String → Option Json
  | [], _ => none
  | (k', v) :: rest, k => if k = k' then some v else lookupField rest k

/-- Byte-wise lexicographic comparison of character lists, the order of
`std::string::operator<` used by the `std::map` inside jsoncpp. -/
def charListLt : List Char → List Char → Bool
  | [], [] => false
  | [], _ :: _ => true
  | _ :: _, [] => false
  | c :: cs, d :: ds =>
    if c.toNat < d.toNat then true
    else if d.toNat < c.toNat then false
    else charListLt cs ds

/-- `std::string` comparison on the one-byte-per-character model. -/
def strLt (s t : String) : Bool := charListLt s.toList t.toList

/-- Sorted insertion of a member, mirroring `std::map` insertion order
inside jsoncpp: members are kept ordered by key, and assigning to an
existing key replaces its value. -/
def insertField : List (String × Json) → String → Json → List (String × Json)
  | [], k, v => [(k, v)]
  | (k', v') :: rest, k, v =>
    if strLt k k' then (k, v) :: (k', v') :: rest
    else if k = k' then (k, v) :: rest
    else (k', v') :: insertField rest k v

/-- `value[key] = v` on a jsoncpp value: a null value is silently turned
into an object first (jsoncpp behaviour of the non-const `operator[]`).
The non-object scalar case never occurs at the call sites modelled here. -/
def setField : Json → String → Json → Json
  | .obj fs, k, v => .obj (insertField fs k v)
  | _, k, v => .obj [(k, v)]

/-- Read access `value[key]` on a *const* jsoncpp value: defined on null
(yielding null) and on objects (yielding the member or null); on any other
value class jsoncpp raises a `Json::LogicError`, modelled as `none`. -/
def getField : Json → String → Option Json
  | .null, _ => some .null
  | .obj fs, k => some ((lookupField fs k).getD .null)
  | _, _ => none

/-- `value[key]` when the receiver is statically known to be an object or
null, so that the jsoncpp assertion cannot fire. -/
def field (j : Json) (k : String) : Json :=
  (j.getField k).getD .null

/-- jsoncpp `asString`: null yields the empty string, booleans print as
`true`/`false`, integral values print in decimal, and array/object values
raise a `Json::LogicError`, modelled as `none`. -/
def asString : Json → Option String
  | .null => some ""
  | .str s => some s
  | .bool b => some (if b then "true" else "false")
  | .num n => some (toString n)
  | .arr _ => none
  | .obj _ => none

/-- jsoncpp `isObject`. -/
def isObject : Json → Bool
  | .obj _ => true
  | _ => false

/-- jsoncpp `isNull`. -/
def isNull : Json → Bool
  | .null => true
  | _ => false

/-- jsoncpp `isInt`. -/
def isInt : Json → Bool
  | .num _ => true
  | _ => false

/-- jsoncpp `asInt`; only invoked after an `isInt` guard in this code
base, so the non-numeric default is unreachable. -/
def asInt : Json → Int
  | .num n => n
  | _ => 0

/-- Contextual conversion of a jsoncpp value to `bool`
(`if (Json::Value v = ...)`): true exactly for non-null values. -/
def truthy (j : Json) : Bool := !j.isNull

/-- Range-for over a jsoncpp value: arrays iterate their elements,
objects their member values, everything else iterates nothing. -/
def iterVals : Json → List Json
  | .arr es => es
  | .obj fs => fs.map Prod.snd
  | _ => []

end Json

/-- One escaped character of the compact JSON writer (ASCII subset of the
jsoncpp quoting rules; the claims never exercise exotic escapes). -/
def escapeChar (c : Char) : List Char :=
  if c = '"' then ['\\', '"']
  else if c = '\\' then ['\\', '\\']
  else if c = '\n' then ['\\', 'n']
  else if c = '\r' then ['\\', 'r']
  else if c = '\t' then ['\\', 't']
  else [c]

/-- Quoted JSON string. -/
def quoteString (s : String) : String :=
  ⟨'"' :: (s.toList.foldr (fun c acc => escapeChar c ++ acc) ['"'])⟩

mutual

/-- `solidity::util::jsonCompactPrint`: the compact (no whitespace)
serialization of a JSON value. -/
def jsonCompactPrint : Json → String
  | .null => "null"
  | .bool b => if b then "true" else "false"
  | .num n => toString n
  | .str s => quoteString s
  | .arr es => "[" ++ jsonCompactPrintList es ++ "]"
  | .obj fs => "\x7b" ++ jsonCompactPrintFields fs ++ "\x7d"

/-- Comma-separated compact printing of array elements. -/
def jsonCompactPrintList : List Json → String
  | [] => ""
  | [e] => jsonCompactPrint e
  | e :: e' :: rest => jsonCompactPrint e ++ "," ++ jsonCompactPrintList (e' :: rest)

/-- Comma-separated compact printing of object members. -/
def jsonCompactPrintFields : List (String × Json) → String
  | [] => ""
  | [(k, v)] => quoteString k ++ ":" ++ jsonCompactPrint v
  | (k, v) :: f :: rest =>
    quoteString k ++ ":" ++ jsonCompactPrint v ++ "," ++ jsonCompactPrintFields (f :: rest)

end

/-! ## Position translation (spec §4.3)

The translation functions live in `liblangutil/CharStream.cpp`, which is
not part of the sources under verification; they are modelled from the
spec.  Text is a sequence of one-byte characters; lines are separated by
the newline character; both coordinates are zero-based. -/

/-- Modelled from the spec: core of `CharStream::translatePositionToLineColumn`
(`offsetToLineColumn`), on the character list of the text.  The line is
the number of newline characters strictly before the offset and the
column is the distance from the start of the current line. -/
def translatePositionToLineColumnL : List Char → Nat → Nat × Nat
  | _, 0 => (0, 0)
  | [], o => (0, o)
  | c :: rest, o + 1 =>
    if c = '\n' then
      ((translatePositionToLineColumnL rest o).1 + 1, (translatePositionToLineColumnL rest o).2)
    else if (translatePositionToLineColumnL rest o).1 = 0 then
      (0, (translatePositionToLineColumnL rest o).2 + 1)
    else translatePositionToLineColumnL rest o

/-- Modelled from the spec: core of `CharStream::translateLineColumnToPosition`
(`positionToOffset`) on the character list of the text.  It scans to the
start of the requested zero-based line and adds the column; the result is
`none` when the line does not exist or the resulting offset lies beyond
the text's extent. -/
def translateLineColumnToPositionL : List Char → Nat × Nat → Option Nat
  | text, (0, col) => if col ≤ text.length then some col else none
  | [], (_ + 1, _) => none
  | c :: rest, (l + 1, col) =>
    (translateLineColumnToPositionL rest (if c = '\n' then (l, col) else (l + 1, col))).map (· + 1)

/-- Modelled from the spec: `CharStream::translatePositionToLineColumn` on a
text given as a string of one-byte characters. -/
def translatePositionToLineColumn (text : String) (offset : Nat) : Nat × Nat :=
  translatePositionToLineColumnL text.toList offset

/-- Modelled from the spec: `CharStream::translateLineColumnToPosition`,
including the rejection of negative coordinates performed by the C++
function (coordinates arrive as signed integers from `parseLineColumn`). -/
def translateLineColumnToPosition (text : String) (line col : Int) : Option Nat :=
  if line < 0 ∨ col < 0 then none
  else translateLineColumnToPositionL text.toList (line.toNat, col.toNat)

/-- Unfolding lemma: the line-zero case of the offset resolution. -/
theorem tlctpL_zero (text : List Char) (col : Nat) :
    translateLineColumnToPositionL text (0, col) =
      if col ≤ text.length then some col else none := by
  cases text <;> rfl

/-- Unfolding lemma: the positive-line case of the offset resolution. -/
theorem tlctpL_cons (c : Char) (rest : List Char) (l col : Nat) :
    translateLineColumnToPositionL (c :: rest) (l + 1, col) =
      (translateLineColumnToPositionL rest
        (if c = '\n' then (l, col) else (l + 1, col))).map (· + 1) := rfl

/-- On line zero the computed column equals the offset itself. -/
theorem translatePosition_line0_col (text : List Char) (o : Nat)
    (ho : o ≤ text.length)
    (h : (translatePositionToLineColumnL text o).1 = 0) :
    (translatePositionToLineColumnL text o).2 = o := by
  induction text generalizing o with
  | nil =>
    have : o = 0 := Nat.le_zero.mp ho
    subst this; rfl
  | cons c rest ih =>
    match o with
    | 0 => rfl
    | o' + 1 =>
      have ho' : o' ≤ rest.length := by simpa using ho
      simp only [translatePositionToLineColumnL] at h ⊢
      by_cases hc : c = '\n'
      · simp [hc] at h
      · simp only [hc, if_false] at h ⊢
        by_cases hz : (translatePositionToLineColumnL rest o').1 = 0
        · simp only [hz, if_pos rfl] at h ⊢
          exact congrArg Nat.succ (ih o' ho' hz)
        · simp only [if_neg hz] at h
          exact absurd h hz

/-- Round trip at the list level: a valid offset survives translation to
line/column and back. -/
theorem roundTripL (text : List Char) (o : Nat) (ho : o ≤ text.length) :
    translateLineColumnToPositionL text (translatePositionToLineColumnL text o) = some o := by
  induction text generalizing o with
  | nil =>
    have : o = 0 := Nat.le_zero.mp ho
    subst this; rfl
  | cons c rest ih =>
    match o with
    | 0 =>
      rw [show translatePositionToLineColumnL (c :: rest) 0 = (0, 0) from rfl, tlctpL_zero]
      simp
    | o' + 1 =>
      have ho' : o' ≤ rest.length := by simpa using ho
      have ihr := ih o' ho'
      rcases hlk : translatePositionToLineColumnL rest o' with ⟨l, k⟩
      rw [hlk] at ihr
      simp only [translatePositionToLineColumnL, hlk]
      by_cases hc : c = '\n'
      · simp only [hc, if_true]
        rw [tlctpL_cons]
        simp [ihr]
      · simp only [hc, if_false]
        rcases l with _ | l'
        · have hcol : k = o' := by
            have := translatePosition_line0_col rest o' ho' (by rw [hlk])
            rw [hlk] at this
            exact this
          simp only [if_true]
          rw [tlctpL_zero]
          subst hcol
          simp only [List.length_cons]
          rw [if_pos (Nat.succ_le_succ ho')]
        · simp only [Nat.succ_ne_zero, if_false]
          rw [tlctpL_cons, if_neg hc, ihr]
          rfl

/-- C6: for every document text and every valid byte offset `o`,
translating `o` to a (line, character) pair with
`translatePositionToLineColumn` and translating that pair back with
`translateLineColumnToPosition` (the pair of `CharStream` translation
functions that `LanguageServer::parsePosition` and
`LanguageServer::toRange` are built on) yields `o` again. -/
theorem position_offset_roundTrip (text : String) (o : Nat) (ho : o ≤ text.length) :
    translateLineColumnToPosition text
      (Int.ofNat (translatePositionToLineColumn text o).1)
      (Int.ofNat (translatePositionToLineColumn text o).2) = some o := by
  have hlen : text.length = text.toList.length := rfl
  unfold translateLineColumnToPosition
  rw [if_neg (by push_neg; exact ⟨Int.ofNat_nonneg _, Int.ofNat_nonneg _⟩)]
  have := roundTripL text.toList o (hlen ▸ ho)
  unfold translatePositionToLineColumn
  exact this

/-- Witness for `position_offset_roundTrip` at a concrete two-line
document and the offset of its second-line character. -/
theorem position_offset_roundTrip_witness :
    (4 ≤ ("ab\ncd" : String).length) ∧
      translateLineColumnToPosition "ab\ncd"
        (Int.ofNat (translatePositionToLineColumn "ab\ncd" 4).1)
        (Int.ofNat (translatePositionToLineColumn "ab\ncd" 4).2) = some 4 :=
  ⟨by decide, position_offset_roundTrip "ab\ncd" 4 (by decide)⟩

/-! ## Transport, outbound side (`Transport.cpp`) -/

/-- Modelled from the spec: the JSON-RPC / LSP error codes used by the
server are declared in `lsp/Transport.h`, which is not among the sources;
the spec fixes them to the standard JSON-RPC/LSP integers. -/
inductive ErrorCode where
  | ParseError
  | InvalidParams
  | MethodNotFound
  | InternalError
  | RequestFailed
deriving DecidableEq, Inhabited

/-- The numeric value carried on the wire for each error code. -/
def ErrorCode.toInt : ErrorCode → Int
  | .ParseError => -32700
  | .MethodNotFound => -32601
  | .InvalidParams => -32602
  | .InternalError => -32603
  | .RequestFailed => -32803

/-- One outbound transport call made by the server: `Transport::notify`,
`Transport::reply` or `Transport::error` with their arguments. -/
inductive Outbound where
  | notifyMsg (method : String) (params : Json)
  | replyMsg (id : Json) (result : Json)
  | errorMsg (id : Json) (code : ErrorCode) (message : String)
deriving Inhabited

/-- The JSON body assembled by `JSONTransport::send`: the `jsonrpc`
envelope field is installed first, then the `id` field exactly when the
id is non-null. -/
def sendJson (json : Json) (id : Json) : Json :=
  let json1 := json.setField "jsonrpc" (.str "2.0")
  if id.isNull then json1 else json1.setField "id" id

/-- `JSONTransport::send`: compact-prints the body and frames it with a
`Content-Length` header holding the body's byte length, a blank line,
and the body itself (the stream is flushed right afterwards). -/
def JSONTransport.send (json : Json) (id : Json) : String :=
  "Content-Length: " ++ toString (jsonCompactPrint (sendJson json id)).length ++
    "\r\n" ++ "\r\n" ++ jsonCompactPrint (sendJson json id)

/-- `JSONTransport::notify`: method and params, no id. -/
def JSONTransport.notify (method : String) (message : Json) : String :=
  JSONTransport.send (((Json.obj []).setField "method" (.str method)).setField "params" message)
    .null

/-- `JSONTransport::reply`: result payload, echoing the request id. -/
def JSONTransport.reply (id : Json) (message : Json) : String :=
  JSONTransport.send ((Json.obj []).setField "result" message) id

/-- `JSONTransport::error`: error object with numeric code and text. -/
def JSONTransport.error (id : Json) (code : ErrorCode) (message : String) : String :=
  JSONTransport.send ((Json.obj []).setField "error"
    (((Json.obj []).setField "code" (.num code.toInt)).setField "message" (.str message))) id

/-- Wire serialization of one outbound call. -/
def Outbound.serialize : Outbound → String
  | .notifyMsg m p => JSONTransport.notify m p
  | .replyMsg id r => JSONTransport.reply id r
  | .errorMsg id c msg => JSONTransport.error id c msg

/-- The JSON body that `Outbound.serialize` frames. -/
def Outbound.wireBody : Outbound → Json
  | .notifyMsg m p =>
    sendJson (((Json.obj []).setField "method" (.str m)).setField "params" p) .null
  | .replyMsg id r => sendJson ((Json.obj []).setField "result" r) id
  | .errorMsg id c msg =>
    sendJson ((Json.obj []).setField "error"
      (((Json.obj []).setField "code" (.num c.toInt)).setField "message" (.str msg))) id

/-- Member lookup on a JSON object, `none` on anything else. -/
def Json.memberJ : Json → String → Option Json
  | .obj fs, k => Json.lookupField fs k
  | _, _ => none

/-- Inserting a member and looking it up yields the inserted value. -/
theorem lookupField_insertField_self (fs : List (String × Json)) (k : String) (v : Json) :
    Json.lookupField (Json.insertField fs k v) k = some v := by
  induction fs with
  | nil => simp [Json.insertField, Json.lookupField]
  | cons p rest ih =>
    obtain ⟨k', v'⟩ := p
    simp only [Json.insertField]
    by_cases hlt : Json.strLt k k' = true
    · simp [hlt, Json.lookupField]
    · by_cases heq : k = k'
      · subst heq
        split <;> simp_all [Json.lookupField]
      · simp [hlt, heq, Json.lookupField, ih]

/-- Inserting a member leaves the lookup of a different key unchanged. -/
theorem lookupField_insertField_ne (fs : List (String × Json)) (k k₂ : String) (v : Json)
    (h : k ≠ k₂) :
    Json.lookupField (Json.insertField fs k₂ v) k = Json.lookupField fs k := by
  induction fs with
  | nil => simp [Json.insertField, Json.lookupField, h]
  | cons p rest ih =>
    obtain ⟨k', v'⟩ := p
    simp only [Json.insertField]
    by_cases hlt : Json.strLt k₂ k' = true
    · simp [hlt, Json.lookupField, h]
    · by_cases heq : k₂ = k'
      · subst heq
        simp [hlt, Json.lookupField, h]
      · simp only [hlt, heq, if_false]
        by_cases hk : k = k'
        · simp [Json.lookupField, hk]
        · simp [Json.lookupField, hk, ih]

/-- C8: every outbound message is framed as a `Content-Length` header
whose value is the byte length of the compact JSON body, a blank line,
then exactly that body; the body always carries `"jsonrpc":"2.0"`;
replies and errors carry the `id` member exactly when the id is
non-null, and notifications never carry one. -/
theorem outbound_framing (o : Outbound) :
    o.serialize =
      "Content-Length: " ++ toString (jsonCompactPrint o.wireBody).length ++
        "\r\n" ++ "\r\n" ++ jsonCompactPrint o.wireBody
    ∧ o.wireBody.memberJ "jsonrpc" = some (.str "2.0")
    ∧ o.wireBody.memberJ "id" =
        (match o with
          | .notifyMsg _ _ => none
          | .replyMsg id _ => if id.isNull then none else some id
          | .errorMsg id _ _ => if id.isNull then none else some id) := by
  refine ⟨?_, ?_, ?_⟩
  · cases o <;> rfl
  · cases o with
    | notifyMsg m p => rfl
    | replyMsg id r => cases id <;> rfl
    | errorMsg id c msg => cases id <;> rfl
  · cases o with
    | notifyMsg m p => rfl
    | replyMsg id r => cases id <;> rfl
    | errorMsg id c msg => cases id <;> rfl

/-! ## `std::map` with string keys -/

/-- Lookup in a `std::map<std::string, T>` modelled as a key-sorted
association list. -/
def mapLookup {α : Type} : List (String × α) → String → Option α
  | [], _ => none
  | (k', v) :: rest, k => if k = k' then some v else mapLookup rest k

/-- Insertion into a `std::map<std::string, T>`: keeps keys sorted in
the byte-wise `std::string` order, replacing the value of an existing
key. -/
def mapInsert {α : Type} : List (String × α) → String → α → List (String × α)
  | [], k, v => [(k, v)]
  | (k', v') :: rest, k, v =>
    if Json.strLt k k' then (k, v) :: (k', v') :: rest
    else if k = k' then (k, v) :: rest
    else (k', v') :: mapInsert rest k v

/-- Inserting a binding and looking it up yields the inserted value. -/
theorem mapLookup_mapInsert_self {α : Type} (m : List (String × α)) (k : String) (v : α) :
    mapLookup (mapInsert m k v) k = some v := by
  induction m with
  | nil => simp [mapInsert, mapLookup]
  | cons p rest ih =>
    obtain ⟨k', v'⟩ := p
    simp only [mapInsert]
    by_cases hlt : Json.strLt k k' = true
    · simp [hlt, mapLookup]
    · by_cases heq : k = k'
      · subst heq
        split <;> simp_all [mapLookup]
      · simp [hlt, heq, mapLookup, ih]

/-- Inserting a binding leaves the lookup of a different key unchanged. -/
theorem mapLookup_mapInsert_ne {α : Type} (m : List (String × α)) (k k₂ : String) (v : α)
    (h : k ≠ k₂) :
    mapLookup (mapInsert m k₂ v) k = mapLookup m k := by
  induction m with
  | nil => simp [mapInsert, mapLookup, h]
  | cons p rest ih =>
    obtain ⟨k', v'⟩ := p
    simp only [mapInsert]
    by_cases hlt : Json.strLt k₂ k' = true
    · simp [hlt, mapLookup, h]
    · by_cases heq : k₂ = k'
      · subst heq
        simp [hlt, mapLookup, h]
      · simp only [hlt, heq, if_false]
        by_cases hk : k = k'
        · simp [mapLookup, hk]
        · simp [mapLookup, hk, ih]

/-! ## Transport, inbound side (`Transport.cpp`) -/

/-- `std::getline` on the modelled byte stream: consumes up to and
including the first newline, yielding the line without it; at the end of
the stream the line is empty. -/
def getline : List Char → List Char × List Char
  | [] => ([], [])
  | c :: rest =>
    if c = '\n' then ([], rest)
    else ((c :: (getline rest).1), (getline rest).2)

/-- Whitespace as classified by `std::isspace`, used by `boost::trim`. -/
def isSpaceChar (c : Char) : Bool :=
  c == ' ' || c == '\t' || c == '\n' || c == '\x0b' || c == '\x0c' || c == '\r'

/-- `boost::trim_copy` on a character list. -/
def trimChars (l : List Char) : List Char :=
  ((l.dropWhile isSpaceChar).reverse.dropWhile isSpaceChar).reverse

/-- `boost::to_lower_copy` on one ASCII character. -/
def toLowerChar (c : Char) : Char :=
  if 65 ≤ c.toNat ∧ c.toNat ≤ 90 then Char.ofNat (c.toNat + 32) else c

/-- The tail left by `getline` is never longer than the input. -/
theorem getline_rest_le (input : List Char) : (getline input).2.length ≤ input.length := by
  induction input with
  | nil => simp [getline]
  | cons c rest ih =>
    simp only [getline]
    split
    · simp
    · simpa using Nat.le_succ_of_le ih

/-- On a nonempty input `getline` consumes at least one character. -/
theorem getline_rest_lt (input : List Char) (h : input ≠ []) :
    (getline input).2.length < input.length := by
  match input, h with
  | c :: rest, _ =>
    simp only [getline]
    split
    · simp
    · simpa using Nat.lt_succ_of_le (getline_rest_le rest)

/-- `JSONTransport::parseHeaders`: reads CRLF-terminated header lines up
to the first blank line into a `std::map`; a line without a colon makes
the whole header block fail.  The header name is lower-cased, the value
whitespace-trimmed.  Returns the parse outcome and the unconsumed
input. -/
def parseHeaders (input : List Char) (acc : List (String × String)) :
    Option (List (String × String)) × List Char :=
  if h : (trimChars (getline input).1).isEmpty then (some acc, (getline input).2)
  else
    let line := (getline input).1
    let name := line.takeWhile (fun c => c ≠ ':')
    if name.length = line.length then (none, (getline input).2)
    else
      parseHeaders (getline input).2
        (mapInsert acc ⟨name.map toLowerChar⟩ ⟨trimChars (line.drop (name.length + 1))⟩)
termination_by input.length
decreasing_by
  refine getline_rest_lt input (fun hnil => ?_)
  rw [hnil] at h
  simp [getline, trimChars] at h

/-- `std::stoul` restricted to the digit-prefix case; the throwing
behaviour on a string without leading digits is not exercised by the
scenarios verified here. -/
def stoulModel (s : String) : Nat :=
  (s.toList.takeWhile Char.isDigit).foldl (fun a c => a * 10 + (c.toNat - 48)) 0

/-- `util::readBytes`: reads up to `n` bytes from the stream. -/
def readBytes (input : List Char) (n : Nat) : String × List Char :=
  (⟨input.take n⟩, input.drop n)

/-- Outcome of one `JSONTransport::receive` call: the parsed message (or
`none` on a receive failure), the error messages the transport itself
emitted, and the unconsumed input. -/
structure ReceiveResult where
  msg : Option Json
  sent : List Outbound
  rest : List Char

/-- `JSONTransport::receive`, parameterized by the strict JSON parser
`util::jsonParseStrict` (external library code; a parse failure carries
the parser's error text).  Each of the three failure branches emits one
`ParseError` with a null id and yields no message. -/
def JSONTransport.receive (parse : String → Except String Json) (input : List Char) :
    ReceiveResult :=
  match parseHeaders input [] with
  | (none, rest) =>
    ⟨none, [.errorMsg .null .ParseError "Could not parse RPC headers."], rest⟩
  | (some headers, rest) =>
    match mapLookup headers "content-length" with
    | none => ⟨none, [.errorMsg .null .ParseError "No content-length header found."], rest⟩
    | some v =>
      match parse (readBytes rest (stoulModel v)).1 with
      | .error errs =>
        ⟨none, [.errorMsg .null .ParseError ("Could not parse RPC JSON payload. " ++ errs)],
          (readBytes rest (stoulModel v)).2⟩
      | .ok j => ⟨some j, [], (readBytes rest (stoulModel v)).2⟩

/-! ## Language server data model (`LanguageServer.cpp`) -/

/-- Modelled from the spec: `langutil::SourceLocation`, a document name
plus a half-open byte-offset range (the C++ field `end` is called `stop`
here because `end` is a Lean keyword). -/
structure SourceLocation where
  start : Int
  stop : Int
  sourceName : Option String
deriving Inhabited

/-- Modelled from the spec: `SourceLocation::hasText`, true when the
range is nonnegative and well ordered. -/
def SourceLocation.hasText (l : SourceLocation) : Bool :=
  decide (0 ≤ l.start) && decide (l.start ≤ l.stop)

/-- Modelled from the spec: the three error severities of the engine
(`Error::Severity` after `Error::errorSeverity`). -/
inductive Severity where
  | error
  | warning
  | info
deriving DecidableEq, Inhabited

/-- `toDiagnosticSeverity` (anonymous namespace of LanguageServer.cpp):
the fixed three-way table 1=Error, 2=Warning, 3=Info. -/
def toDiagnosticSeverity : Severity → Int
  | .error => 1
  | .warning => 2
  | .info => 3

/-- One diagnostic produced by the external compiler engine
(`langutil::Error`, reduced to the fields the server reads: primary
location, severity, type name, numeric id, optional comment, secondary
locations). -/
structure CompilerError where
  loc : Option SourceLocation
  severity : Severity
  typeName : String
  errorId : Nat
  comment : Option String
  secondary : List (String × SourceLocation)
deriving Inhabited

/-- The external compiler engine behind
`m_compilerStack.compile(...)`/`errors()`: a function from the full
source set to the produced diagnostics. -/
def CompileFn : Type := List (String × String) → List CompilerError

/-- The mutable state of `LanguageServer`: the two lifecycle flags, the
configuration blob, the file repository (source units keyed by
canonical name, plus the base path) and the sources currently held by
the compiler stack. -/
structure ServerState where
  shutdownRequested : Bool
  exitRequested : Bool
  settingsObject : Json
  sourceUnits : List (String × String)
  basePath : String
  compilerSources : List (String × String)
deriving Inhabited

/-- A freshly constructed server: both lifecycle flags false, no
documents, FileReader's default base path. -/
def initialState : ServerState :=
  ⟨false, false, .null, [], ".", []⟩

/-- Modelled from the spec: `FileRepository`'s mapping from client paths
to canonical source-unit names.  The spec fixes no concrete scheme, so
the identity mapping is used; the claims below do not depend on the
choice. -/
def clientPathToSourceUnitName (uri : String) : String := uri

/-- Modelled from the spec: the inverse client-path mapping (identity,
matching `clientPathToSourceUnitName`). -/
def sourceUnitNameToClientPath (name : String) : String := name

/-- `FileRepository::setSourceByClientPath`: stores the text under the
canonical name of the given client path. -/
def setSourceByClientPath (st : ServerState) (uri text : String) : ServerState :=
  { st with sourceUnits := mapInsert st.sourceUnits (clientPathToSourceUnitName uri) text }

/-- `parseLineColumn` (anonymous namespace): accepts an object with
integral `line` and `character` members. -/
def parseLineColumn (j : Json) : Option (Int × Int) :=
  if j.isObject && (j.field "line").isInt && (j.field "character").isInt then
    some ((j.field "line").asInt, (j.field "character").asInt)
  else none

/-- `LanguageServer::parsePosition`: resolves a protocol position inside
a known document to a collapsed (start = end) source location. -/
def parsePosition (st : ServerState) (sourceUnitName : String) (position : Json) :
    Option SourceLocation :=
  match mapLookup st.sourceUnits sourceUnitName with
  | none => none
  | some text =>
    match parseLineColumn position with
    | none => none
    | some lc =>
      match translateLineColumnToPosition text lc.1 lc.2 with
      | none => none
      | some offset => some ⟨Int.ofNat offset, Int.ofNat offset, some sourceUnitName⟩

/-- `LanguageServer::parseRange`: both endpoints must resolve within the
same document; the start location is widened to the end offset.  (The
`solAssert` on matching source names cannot fire: both endpoints are
resolved against the same source-unit name.) -/
def parseRange (st : ServerState) (sourceUnitName : String) (range : Json) :
    Option SourceLocation :=
  if !range.isObject then none
  else
    match parsePosition st sourceUnitName (range.field "start"),
        parsePosition st sourceUnitName (range.field "end") with
    | some s, some e => some { s with stop := e.stop }
    | _, _ => none

/-- `toJson(LineColumn)` (anonymous namespace): both coordinates clamped
to a minimum of zero. -/
def lineColumnJson (line col : Int) : Json :=
  ((Json.obj []).setField "line" (.num (max line 0))).setField "character" (.num (max col 0))

/-- `toJsonRange` (anonymous namespace). -/
def jsonRangeOf (s e : Int × Int) : Json :=
  ((Json.obj []).setField "start" (lineColumnJson s.1 s.2)).setField "end"
    (lineColumnJson e.1 e.2)

/-- `LanguageServer::toRange`: a location without text degrades to the
zero range; otherwise both offsets are translated through the character
stream the compiler stack holds for that source.  `none` models the
`solAssert` failures (absent source name, source unknown to the
stack). -/
def LanguageServer.toRange (compilerSources : List (String × String)) (l : SourceLocation) :
    Option Json :=
  if !l.hasText then some (jsonRangeOf (0, 0) (0, 0))
  else
    match l.sourceName with
    | none => none
    | some name =>
      match mapLookup compilerSources name with
      | none => none
      | some text =>
        some (jsonRangeOf
          (Int.ofNat (translatePositionToLineColumn text l.start.toNat).1,
           Int.ofNat (translatePositionToLineColumn text l.start.toNat).2)
          (Int.ofNat (translatePositionToLineColumn text l.stop.toNat).1,
           Int.ofNat (translatePositionToLineColumn text l.stop.toNat).2))

/-- `LanguageServer::toJson(SourceLocation)`: client path plus range;
`none` models the `solAssert` on a missing source name (or a failing
range translation). -/
def LanguageServer.toJsonLoc (compilerSources : List (String × String)) (l : SourceLocation) :
    Option Json :=
  match l.sourceName, LanguageServer.toRange compilerSources l with
  | some name, some range =>
    some (((Json.obj []).setField "uri" (.str (sourceUnitNameToClientPath name))).setField
      "range" range)
  | _, _ => none

/-- The related-information list built from an error's secondary
locations; `none` models an exception escaping the loop. -/
def secondaryJson (compilerSources : List (String × String)) :
    List (String × SourceLocation) → Option (List Json)
  | [] => some []
  | (msg, l) :: rest =>
    match LanguageServer.toJsonLoc compilerSources l with
    | none => none
    | some locJson =>
      match secondaryJson compilerSources rest with
      | none => none
      | some others =>
        some ((((Json.obj []).setField "message" (.str msg)).setField "location" locJson)
          :: others)

/-- The protocol diagnostic built for one engine error with primary
location `l` (the body of the error loop in
`compileAndUpdateDiagnostics`); `none` models an exception escaping the
construction. -/
def diagnosticJson (compilerSources : List (String × String)) (e : CompilerError)
    (l : SourceLocation) : Option Json :=
  match LanguageServer.toRange compilerSources l with
  | none => none
  | some range =>
    match secondaryJson compilerSources e.secondary with
    | none => none
    | some related =>
      let msg := e.typeName ++ ":" ++ (match e.comment with | some c => " " ++ c | none => "")
      let base := (((((Json.obj []).setField "source" (.str "solc")).setField "severity"
        (.num (toDiagnosticSeverity e.severity))).setField "code"
        (.num (Int.ofNat e.errorId))).setField "message" (.str msg)).setField "range" range
      some (if related.isEmpty then base else base.setField "relatedInformation" (.arr related))

/-- The error-distribution loop of `compileAndUpdateDiagnostics`: an
error without a located, named source is skipped; every other error's
diagnostic is appended to its source unit's bucket (`operator[]` on the
bucket map default-constructs a fresh array).  `none` models an
exception escaping the loop. -/
def buildDiagnosticsBuckets (compilerSources : List (String × String)) :
    List CompilerError → List (String × List Json) → Option (List (String × List Json))
  | [], buckets => some buckets
  | e :: rest, buckets =>
    match e.loc with
    | none => buildDiagnosticsBuckets compilerSources rest buckets
    | some l =>
      match l.sourceName with
      | none => buildDiagnosticsBuckets compilerSources rest buckets
      | some name =>
        match diagnosticJson compilerSources e l with
        | none => none
        | some dj =>
          buildDiagnosticsBuckets compilerSources rest
            (mapInsert buckets name ((mapLookup buckets name).getD [] ++ [dj]))

/-- Result of running a handler: the state after it, the transport calls
it made, and the description of an escaped C++ exception if one was
raised (exception descriptions are summarized, not byte-exact). -/
structure HResult where
  st : ServerState
  sent : List Outbound
  exn : Option String
deriving Inhabited

/-- `LanguageServer::compile`: resets the stack and hands it the full
current source-unit set. -/
def LanguageServer.compile (st : ServerState) : ServerState :=
  { st with compilerSources := st.sourceUnits }

/-- The publishDiagnostics notification for one source unit. -/
def publishFor (name : String) (diags : List Json) : Outbound :=
  .notifyMsg "textDocument/publishDiagnostics"
    (((Json.obj []).setField "uri" (.str (sourceUnitNameToClientPath name))).setField
      "diagnostics" (.arr diags))

/-- `LanguageServer::compileAndUpdateDiagnostics`: recompile, start an
empty bucket for *every* known document, distribute located diagnostics
into the buckets, then emit one publishDiagnostics notification per
known document (empty array included). -/
def compileAndUpdateDiagnostics (cf : CompileFn) (st : ServerState) : HResult :=
  let st1 := LanguageServer.compile st
  let initBuckets := st1.sourceUnits.map (fun p => (p.1, ([] : List Json)))
  match buildDiagnosticsBuckets st1.compilerSources (cf st1.sourceUnits) initBuckets with
  | none => ⟨st1, [], some "internal assertion failed while building diagnostics"⟩
  | some buckets =>
    ⟨st1,
      st1.sourceUnits.map (fun p => publishFor p.1 ((mapLookup buckets p.1).getD [])),
      none⟩

/-! ## Handlers and dispatcher loop -/

/-- Modelled from the spec: the compiler's version string
(`VersionNumber`, a build constant outside these sources). -/
def VersionNumber : String := "0.8.x"

/-- The reply payload of `initialize`: server identity and the declared
capabilities (open/close notifications, incremental change sync). -/
def initializeReply : Json :=
  ((Json.obj []).setField "serverInfo"
      (((Json.obj []).setField "name" (.str "solc")).setField "version"
        (.str VersionNumber))).setField
    "capabilities"
    ((Json.obj []).setField "textDocumentSync"
      (((Json.obj []).setField "openClose" (.bool true)).setField "change" (.num 2)))

/-- Tail of `handleInitialize` after the root path is determined: set
the base path, optionally install the configuration blob, reply. -/
def handleInitializeRest (st : ServerState) (id args : Json) (rootPath : String) : HResult :=
  let st1 := { st with basePath := rootPath }
  match args.getField "initializationOptions" with
  | none => ⟨st1, [], some "value is not convertible to object"⟩
  | some opts =>
    let st2 := if opts.isObject then { st1 with settingsObject := opts } else st1
    ⟨st2, [.replyMsg id initializeReply], none⟩

/-- `LanguageServer::handleInitialize`.  NOTE (faithful to the code): in
`else if (Json::Value rootPath = _args["rootPath"])` the condition
declares a fresh `Json::Value` that shadows the outer
`std::string rootPath("/")`; the branch body assigns the string form to
that shadow, so the outer root path keeps its initial value `"/"`. -/
def handleInitialize (st : ServerState) (id args : Json) : HResult :=
  match args.getField "rootUri" with
  | none => ⟨st, [], some "value is not convertible to object"⟩
  | some uriVal =>
    if uriVal.truthy then
      match uriVal.asString with
      | none => ⟨st, [], some "type is not convertible to string"⟩
      | some uriStr =>
        if "file://".toList.isPrefixOf uriStr.toList then
          handleInitializeRest st id args ⟨uriStr.toList.drop 7⟩
        else
          ⟨st, [.errorMsg id .InvalidParams "rootUri only supports file URI scheme."], none⟩
    else
      match args.getField "rootPath" with
      | none => ⟨st, [], some "value is not convertible to object"⟩
      | some rootPathVal =>
        if rootPathVal.truthy then
          match rootPathVal.asString with
          | none => ⟨st, [], some "type is not convertible to string"⟩
          | some _ => handleInitializeRest st id args "/"
        else handleInitializeRest st id args "/"

/-- `LanguageServer::handleWorkspaceDidChangeConfiguration`: replaces
the configuration blob when `settings` is an object. -/
def handleWorkspaceDidChangeConfiguration (st : ServerState) (args : Json) : HResult :=
  match args.getField "settings" with
  | none => ⟨st, [], some "value is not convertible to object"⟩
  | some settings =>
    if settings.isObject then ⟨{ st with settingsObject := settings }, [], none⟩
    else ⟨st, [], none⟩

/-- `LanguageServer::handleTextDocumentDidOpen`.  NOTE (faithful to the
code): after emitting the missing-parameter error the function does NOT
return; it falls through, records the document under the extracted
(empty) path and recompiles. -/
def handleTextDocumentDidOpen (cf : CompileFn) (st : ServerState) (id args : Json) : HResult :=
  match args.getField "textDocument" with
  | none => ⟨st, [], some "value is not convertible to object"⟩
  | some td =>
    let errs :=
      if !td.truthy then
        [Outbound.errorMsg id .RequestFailed "Text document parameter missing."]
      else []
    match td.getField "text" with
    | none => ⟨st, errs, some "value is not convertible to object"⟩
    | some textVal =>
      match textVal.asString with
      | none => ⟨st, errs, some "type is not convertible to string"⟩
      | some text =>
        match td.getField "uri" with
        | none => ⟨st, errs, some "value is not convertible to object"⟩
        | some uriVal =>
          match uriVal.asString with
          | none => ⟨st, errs, some "type is not convertible to string"⟩
          | some uri =>
            let r := compileAndUpdateDiagnostics cf (setSourceByClientPath st uri text)
            ⟨r.st, errs ++ r.sent, r.exn⟩

/-- `std::string::replace(pos, len, str)` on the one-byte character
model: removes `len` bytes at `pos` and inserts `str` there. -/
def stringReplace (s : String) (pos len : Nat) (t : String) : String :=
  ⟨s.toList.take pos ++ t.toList ++ s.toList.drop (pos + len)⟩

/-- Outcome of one content-change entry: the state with the entry's
buffer installed, a request failure (with the error it sends), or an
exception. -/
inductive EntryResult where
  | ok (st : ServerState)
  | failed (sent : List Outbound)
  | exn (msg : String)

/-- The body of one iteration of the change loop in
`handleTextDocumentDidChange`: the entry is validated against the
*current* repository content and, on success, its resulting buffer is
immediately installed through `FileRepository::setSourceByClientPath`. -/
def applyContentChange (id : Json) (uri : String) (st : ServerState) (change : Json) :
    EntryResult :=
  if !change.isObject then
    .failed [.errorMsg id .RequestFailed "Invalid content reference."]
  else
    match mapLookup st.sourceUnits (clientPathToSourceUnitName uri) with
    | none => .failed [.errorMsg id .RequestFailed ("Unknown file: " ++ uri)]
    | some buffer =>
      match (change.field "text").asString with
      | none => .exn "type is not convertible to string"
      | some text =>
        if (change.field "range").isObject then
          match parseRange st (clientPathToSourceUnitName uri) (change.field "range") with
          | some chg =>
            if chg.hasText then
              .ok (setSourceByClientPath st uri
                (stringReplace buffer chg.start.toNat (chg.stop - chg.start).toNat text))
            else
              .failed [.errorMsg id .RequestFailed
                ("Invalid source range: " ++ jsonCompactPrint (change.field "range"))]
          | none =>
            .failed [.errorMsg id .RequestFailed
              ("Invalid source range: " ++ jsonCompactPrint (change.field "range"))]
        else .ok (setSourceByClientPath st uri text)

/-- Outcome of the change-processing loop in
`handleTextDocumentDidChange`: every entry applied, or a request-failure
error emitted (which stops the loop), or an exception raised. -/
inductive ChangeOutcome where
  | ok (st : ServerState)
  | failed (st : ServerState) (sent : List Outbound)
  | exn (st : ServerState) (msg : String)

/-- The per-entry loop of `handleTextDocumentDidChange`: entries are
applied in array order; a failing entry sends its error and stops the
loop, leaving the state as the previous entries made it. -/
def didChangeLoop (id : Json) (uri : String) (st : ServerState) :
    List Json → ChangeOutcome
  | [] => .ok st
  | change :: rest =>
    match applyContentChange id uri st change with
    | .ok st2 => didChangeLoop id uri st2 rest
    | .failed sent => .failed st sent
    | .exn m => .exn st m

/-- `LanguageServer::handleTextDocumentDidChange`: extract the client
path, run the change loop, and recompile only when every entry
succeeded. -/
def handleTextDocumentDidChange (cf : CompileFn) (st : ServerState) (id args : Json) :
    HResult :=
  match args.getField "textDocument" with
  | none => ⟨st, [], some "value is not convertible to object"⟩
  | some td =>
    match td.getField "uri" with
    | none => ⟨st, [], some "value is not convertible to object"⟩
    | some uriVal =>
      match uriVal.asString with
      | none => ⟨st, [], some "type is not convertible to string"⟩
      | some uri =>
        match args.getField "contentChanges" with
        | none => ⟨st, [], some "value is not convertible to object"⟩
        | some changes =>
          match didChangeLoop id uri st changes.iterVals with
          | .exn st1 m => ⟨st1, [], some m⟩
          | .failed st1 sent => ⟨st1, sent, none⟩
          | .ok st1 =>
            let r := compileAndUpdateDiagnostics cf st1
            ⟨r.st, r.sent, r.exn⟩

/-- The fixed handler set installed by the `LanguageServer`
constructor. -/
inductive Handler where
  | cancelRequest
  | exitServer
  | initializeReq
  | initializedNote
  | shutdownServer
  | didChange
  | didClose
  | didOpen
  | didChangeConfiguration
deriving DecidableEq

/-- Exact method-name lookup in `m_handlers`. -/
def lookupHandler : String → Option Handler
  | "$/cancelRequest" => some .cancelRequest
  | "cancelRequest" => some .cancelRequest
  | "exit" => some .exitServer
  | "initialize" => some .initializeReq
  | "initialized" => some .initializedNote
  | "shutdown" => some .shutdownServer
  | "textDocument/didChange" => some .didChange
  | "textDocument/didClose" => some .didClose
  | "textDocument/didOpen" => some .didOpen
  | "workspace/didChangeConfiguration" => some .didChangeConfiguration
  | _ => none

/-- Invocation of one handler with `(id, params)`. -/
def execHandler (cf : CompileFn) (st : ServerState) (id params : Json) : Handler → HResult
  | .cancelRequest => ⟨st, [], none⟩
  | .initializedNote => ⟨st, [], none⟩
  | .didClose => ⟨st, [], none⟩
  | .exitServer => ⟨{ st with exitRequested := true }, [], none⟩
  | .shutdownServer => ⟨{ st with shutdownRequested := true }, [], none⟩
  | .initializeReq => handleInitialize st id params
  | .didChangeConfiguration => handleWorkspaceDidChangeConfiguration st params
  | .didOpen => handleTextDocumentDidOpen cf st id params
  | .didChange => handleTextDocumentDidChange cf st id params

/-- One iteration of the dispatcher loop body of `LanguageServer::run`:
a failed receive yields a ParseError with null id and the loop
continues; otherwise the method name and id are extracted, the handler
looked up and run, an unknown method answered with MethodNotFound, and
any exception escaping the try block converted to an InternalError with
null id. -/
def processMessage (cf : CompileFn) (st : ServerState) :
    Option Json → ServerState × List Outbound
  | none => (st, [.errorMsg .null .ParseError "Error parsing JSONRPC request."])
  | some jsonMessage =>
    match jsonMessage.getField "method" with
    | none =>
      (st, [.errorMsg .null .InternalError
        "Unhandled exception: value is not convertible to object"])
    | some methodVal =>
      match methodVal.asString with
      | none =>
        (st, [.errorMsg .null .InternalError
          "Unhandled exception: type is not convertible to string"])
      | some methodName =>
        let id := (jsonMessage.getField "id").getD .null
        match lookupHandler methodName with
        | none => (st, [.errorMsg id .MethodNotFound ("Unknown method " ++ methodName)])
        | some h =>
          let r := execHandler cf st id ((jsonMessage.getField "params").getD .null) h
          match r.exn with
          | some e =>
            (r.st, r.sent ++ [.errorMsg .null .InternalError ("Unhandled exception: " ++ e)])
          | none => (r.st, r.sent)

/-- `LanguageServer::run`: the dispatcher loop over the stream of
receive results (`none` standing for a failed receive); an exhausted
stream models the transport reporting `closed()`.  Yields the return
value (the shutdown flag), the final state, and everything sent. -/
def run (cf : CompileFn) (st : ServerState) :
    List (Option Json) → Bool × ServerState × List Outbound
  | [] => (st.shutdownRequested, st, [])
  | m :: rest =>
    if st.exitRequested then (st.shutdownRequested, st, [])
    else
      let r := processMessage cf st m
      let next := run cf r.1 rest
      (next.1, next.2.1, r.2 ++ next.2.2)

/-! ## Concrete protocol messages used in the claim evaluations -/

/-- A compile function producing no diagnostics. -/
def cfNone : CompileFn := fun _ => []

/-- The `shutdown` notification as parsed JSON. -/
def shutdownMsg : Json := .obj [("method", .str "shutdown")]

/-- The `exit` notification as parsed JSON. -/
def exitMsg : Json := .obj [("method", .str "exit")]

/-- An LSP position object (member order as jsoncpp stores it). -/
def positionJson (line col : Int) : Json :=
  .obj [("character", .num col), ("line", .num line)]

/-- An LSP range object. -/
def rangeJson (sl sc el ec : Int) : Json :=
  .obj [("end", positionJson el ec), ("start", positionJson sl sc)]

/-- didChange params for one document and a list of content changes. -/
def didChangeArgs (uri : String) (changes : List Json) : Json :=
  .obj [("contentChanges", .arr changes), ("textDocument", .obj [("uri", .str uri)])]

/-- The server state after opening `A.sol` with text `contract C {}`. -/
def docOpenedA : ServerState :=
  (handleTextDocumentDidOpen cfNone initialState .null
    (.obj [("textDocument",
      .obj [("text", .str "contract C \x7b\x7d"), ("uri", .str "A.sol")])])).st

/-! ## Claim theorems -/

/-- C5: the dispatcher loop keeps running while neither the exit flag is
set nor the transport closed, and its return value is the shutdown
flag: a shutdown message followed by an exit message terminates the
loop returning true, while an exit message with no prior shutdown
terminates it returning false. -/
theorem run_lifecycle :
    (∀ (cf : CompileFn) (st : ServerState) (msgs : List (Option Json)),
      (run cf st msgs).1 = (run cf st msgs).2.1.shutdownRequested)
    ∧ (∀ cf : CompileFn,
        (run cf initialState [some shutdownMsg, some exitMsg]).1 = true)
    ∧ (∀ cf : CompileFn, (run cf initialState [some exitMsg]).1 = false) := by
  refine ⟨?_, fun cf => rfl, fun cf => rfl⟩
  intro cf st msgs
  induction msgs generalizing st with
  | nil => rfl
  | cons m rest ih =>
    simp only [run]
    split
    · rfl
    · exact ih _

/-- C2 (refuting evaluation): an initialize request whose params carry
no `rootUri` but do carry a `rootPath` leaves the base path at its
initial value `"/"` — the `rootPath` fallback never takes effect,
because the branch assigns to a freshly declared shadow of the outer
root-path variable. -/
theorem initialize_rootPath_fallback_shadowed (st : ServerState) (id : Json) (rp : String) :
    (handleInitialize st id (.obj [("rootPath", .str rp)])).st.basePath = "/"
    ∧ (handleInitialize st id (.obj [("rootPath", .str rp)])).sent =
        [.replyMsg id initializeReply] :=
  ⟨rfl, rfl⟩

/-- Concrete evaluation of the shadowed rootPath fallback: with
`rootPath` equal to `"/project"`, the resulting base path is `"/"`, not
`"/project"`. -/
theorem initialize_rootPath_concrete :
    (handleInitialize initialState (.num 1) (.obj [("rootPath", .str "/project")])).st.basePath
        = "/"
    ∧ (handleInitialize initialState (.num 1)
        (.obj [("rootPath", .str "/project")])).st.basePath ≠ "/project" :=
  ⟨rfl, by decide⟩

/-- C3 (refuting evaluation): a didOpen whose params lack `textDocument`
emits the RequestFailed error but then *falls through*: a document is
recorded under the empty client path and diagnostics are published —
the server state does not stay unchanged. -/
theorem didOpen_missing_textDocument_falls_through :
    (handleTextDocumentDidOpen cfNone initialState (.num 1) (.obj [])).st.sourceUnits
        = [("", "")]
    ∧ (handleTextDocumentDidOpen cfNone initialState (.num 1) (.obj [])).sent =
        [.errorMsg (.num 1) .RequestFailed "Text document parameter missing.",
         publishFor "" []]
    ∧ (handleTextDocumentDidOpen cfNone initialState (.num 1) (.obj [])).exn = none :=
  ⟨rfl, rfl, rfl⟩

/-- C7 (refuting evaluation): on the document opened with
`contract C {}` (13 bytes), the didChange entry replacing range
(0,9)-(0,17) with `library` does NOT produce `library C {}`: the end
position lies beyond the text's extent, so the range fails to resolve,
a RequestFailed error is emitted and the stored buffer is unchanged. -/
theorem didChange_range_9_17_fails :
    (handleTextDocumentDidChange cfNone docOpenedA (.num 2)
        (didChangeArgs "A.sol"
          [.obj [("range", rangeJson 0 9 0 17), ("text", .str "library")]])).st.sourceUnits
      = [("A.sol", "contract C \x7b\x7d")]
    ∧ (∃ m, (handleTextDocumentDidChange cfNone docOpenedA (.num 2)
        (didChangeArgs "A.sol"
          [.obj [("range", rangeJson 0 9 0 17), ("text", .str "library")]])).sent
      = [.errorMsg (.num 2) .RequestFailed m])
    ∧ mapLookup (handleTextDocumentDidChange cfNone docOpenedA (.num 2)
        (didChangeArgs "A.sol"
          [.obj [("range", rangeJson 0 9 0 17), ("text", .str "library")]])).st.sourceUnits
        "A.sol" ≠ some "library C \x7b\x7d" :=
  ⟨rfl, ⟨_, rfl⟩, by decide⟩

/-- A failing content-change entry always sends exactly one
RequestFailed error. -/
theorem applyContentChange_failed_shape (id : Json) (uri : String) (st : ServerState)
    (change : Json) (sent : List Outbound)
    (h : applyContentChange id uri st change = .failed sent) :
    ∃ m, sent = [.errorMsg id .RequestFailed m] := by
  unfold applyContentChange at h
  repeat' split at h
  all_goals first
    | (cases h; exact ⟨_, rfl⟩)
    | cases h

/-- The change loop, on failure, decomposes into a successful prefix
(whose state is the final one), one RequestFailed send, and an
unprocessed suffix. -/
theorem didChangeLoop_failed_split (id : Json) (uri : String) :
    ∀ (changes : List Json) (st st' : ServerState) (sent : List Outbound),
      didChangeLoop id uri st changes = .failed st' sent →
      (∃ m, sent = [.errorMsg id .RequestFailed m])
      ∧ ∃ pre suffix, changes = pre ++ suffix
          ∧ didChangeLoop id uri st pre = .ok st'
          ∧ didChangeLoop id uri st' suffix = .failed st' sent
          ∧ suffix ≠ [] := by
  intro changes
  induction changes with
  | nil => intro st st' sent h; simp [didChangeLoop] at h
  | cons change rest ih =>
    intro st st' sent h
    simp only [didChangeLoop] at h
    rcases hstep : applyContentChange id uri st change with st2 | sentF | m <;>
      simp only [hstep] at h
    · obtain ⟨hm, pre', suffix, hsplit, hok, hfail, hne⟩ := ih st2 st' sent h
      refine ⟨hm, change :: pre', suffix, by rw [hsplit]; rfl, ?_, hfail, hne⟩
      simp only [didChangeLoop, hstep]
      exact hok
    · cases h
      exact ⟨applyContentChange_failed_shape id uri st change _ hstep,
        [], change :: rest, rfl, rfl, by simp only [didChangeLoop, hstep], by simp⟩
    · cases h

/-- Unfolding of `handleTextDocumentDidChange` on well-formed didChange
params. -/
theorem handleDidChange_on_args (cf : CompileFn) (st : ServerState) (id : Json)
    (uri : String) (changes : List Json) :
    handleTextDocumentDidChange cf st id (didChangeArgs uri changes) =
      (match didChangeLoop id uri st changes with
        | .exn st1 m => ⟨st1, [], some m⟩
        | .failed st1 sent => ⟨st1, sent, none⟩
        | .ok st1 =>
          ⟨(compileAndUpdateDiagnostics cf st1).st,
           (compileAndUpdateDiagnostics cf st1).sent,
           (compileAndUpdateDiagnostics cf st1).exn⟩) := rfl

/-- C1 (amended): when an entry of a didChange batch fails, the server
emits a single RequestFailed error, stops processing the change list
and does not recompile; the stored state is the one left by the
successful prefix of the batch — each entry's splice is committed as
soon as that entry is applied — so it equals the pre-batch state only
when the first entry fails. -/
theorem didChange_failure_keeps_applied
    (cf : CompileFn) (st : ServerState) (id : Json) (uri : String) (changes : List Json)
    (st' : ServerState) (sent : List Outbound)
    (h : didChangeLoop id uri st changes = .failed st' sent) :
    handleTextDocumentDidChange cf st id (didChangeArgs uri changes) = ⟨st', sent, none⟩
    ∧ (∃ m, sent = [.errorMsg id .RequestFailed m])
    ∧ ∃ pre suffix, changes = pre ++ suffix
        ∧ didChangeLoop id uri st pre = .ok st'
        ∧ suffix ≠ [] := by
  obtain ⟨hm, pre, suffix, hsplit, hok, _, hne⟩ :=
    didChangeLoop_failed_split id uri changes st st' sent h
  refine ⟨?_, hm, pre, suffix, hsplit, hok, hne⟩
  rw [handleDidChange_on_args, h]

/-- Witness for `didChange_failure_keeps_applied`: a batch whose first
entry (a full-content update to `XYZ`) succeeds and whose second entry
is invalid ends in the state with `XYZ` committed. -/
theorem didChange_failure_keeps_applied_witness :
    handleTextDocumentDidChange cfNone docOpenedA (.num 3)
        (didChangeArgs "A.sol" [.obj [("text", .str "XYZ")], .str "bad"])
      = ⟨{ docOpenedA with sourceUnits := [("A.sol", "XYZ")] },
         [.errorMsg (.num 3) .RequestFailed "Invalid content reference."], none⟩ :=
  (didChange_failure_keeps_applied cfNone docOpenedA (.num 3) "A.sol"
    [.obj [("text", .str "XYZ")], .str "bad"]
    { docOpenedA with sourceUnits := [("A.sol", "XYZ")] }
    [.errorMsg (.num 3) .RequestFailed "Invalid content reference."] rfl).1

/-- C1 (refuting evaluation): in a didChange batch whose first entry (a
full-content update to `XYZ`) succeeds and whose second entry is an
invalid content reference, the server emits RequestFailed and stops —
but the stored text is `XYZ`, not the pre-batch `contract C {}`: the
first entry's splice was already committed. -/
theorem didChange_failed_batch_commits_first_entry :
    (handleTextDocumentDidChange cfNone docOpenedA (.num 3)
        (didChangeArgs "A.sol" [.obj [("text", .str "XYZ")], .str "bad"])).st.sourceUnits
      = [("A.sol", "XYZ")]
    ∧ (handleTextDocumentDidChange cfNone docOpenedA (.num 3)
        (didChangeArgs "A.sol" [.obj [("text", .str "XYZ")], .str "bad"])).sent
      = [.errorMsg (.num 3) .RequestFailed "Invalid content reference."]
    ∧ ([("A.sol", "XYZ")] : List (String × String)) ≠ docOpenedA.sourceUnits :=
  ⟨rfl, rfl, by decide⟩

/-- Whether an engine error carries a primary location naming the given
source unit. -/
def locatedIn (name : String) (e : CompilerError) : Bool :=
  match e.loc with
  | none => false
  | some l =>
    match l.sourceName with
    | none => false
    | some n => n = name

/-- The diagnostic JSON of an error, through its primary location. -/
def diagnosticJsonOf (sources : List (String × String)) (e : CompilerError) : Option Json :=
  match e.loc with
  | none => none
  | some l => diagnosticJson sources e l

/-- Looking a key up in the freshly initialized bucket map yields the
empty array for every known source unit. -/
theorem mapLookup_initBuckets (src : List (String × String)) (n : String)
    (h : n ∈ src.map Prod.fst) :
    mapLookup (src.map (fun p => (p.1, ([] : List Json)))) n = some [] := by
  induction src with
  | nil => simp at h
  | cons p rest ih =>
    simp only [List.map_cons, mapLookup]
    by_cases hn : n = p.1
    · simp [hn]
    · simp only [hn, if_false]
      apply ih
      simp only [List.map_cons, List.mem_cons] at h
      rcases h with h | h
      · exact absurd h hn
      · exact h

/-- The error-distribution loop succeeds when every located, named
error's diagnostic construction succeeds, and each initialized bucket
ends up holding exactly the diagnostics of the errors located in it, in
engine order. -/
theorem buildBuckets_lookup (sources : List (String × String)) :
    ∀ (errors : List CompilerError) (buckets : List (String × List Json)),
      (∀ e ∈ errors, ∀ l, e.loc = some l → ∀ n, l.sourceName = some n →
        diagnosticJson sources e l ≠ none) →
      ∃ buckets', buildDiagnosticsBuckets sources errors buckets = some buckets'
        ∧ ∀ n b, mapLookup buckets n = some b →
            mapLookup buckets' n =
              some (b ++ (errors.filter (locatedIn n)).filterMap (diagnosticJsonOf sources)) := by
  intro errors
  induction errors with
  | nil =>
    intro buckets _
    exact ⟨buckets, rfl, fun n b hb => by simp [hb]⟩
  | cons e rest ih =>
    intro buckets hwf
    have hwfRest := fun e' he' => hwf e' (List.mem_cons_of_mem _ he')
    rcases he : e.loc with _ | l
    · obtain ⟨buckets', h1, h2⟩ := ih buckets hwfRest
      refine ⟨buckets', by simp only [buildDiagnosticsBuckets, he]; exact h1, ?_⟩
      intro n b hb
      rw [h2 n b hb]
      simp [List.filter_cons, locatedIn, he]
    · rcases hn : l.sourceName with _ | m
      · obtain ⟨buckets', h1, h2⟩ := ih buckets hwfRest
        refine ⟨buckets', by simp only [buildDiagnosticsBuckets, he, hn]; exact h1, ?_⟩
        intro n b hb
        rw [h2 n b hb]
        simp [List.filter_cons, locatedIn, he, hn]
      · rcases hdj : diagnosticJson sources e l with _ | dj
        · exact absurd hdj (hwf e (List.mem_cons_self _ _) l he m hn)
        · obtain ⟨buckets', h1, h2⟩ :=
            ih (mapInsert buckets m ((mapLookup buckets m).getD [] ++ [dj])) hwfRest
          refine ⟨buckets',
            by simp only [buildDiagnosticsBuckets, he, hn, hdj]; exact h1, ?_⟩
          intro n b hb
          by_cases hnm : n = m
          · subst hnm
            have hstep : mapLookup
                (mapInsert buckets n ((mapLookup buckets n).getD [] ++ [dj])) n =
                some (b ++ [dj]) := by
              rw [mapLookup_mapInsert_self, hb]
              rfl
            rw [h2 n (b ++ [dj]) hstep]
            have hloc : locatedIn n e = true := by
              simp [locatedIn, he, hn]
            simp [List.filter_cons, hloc, diagnosticJsonOf, he, hdj, List.append_assoc]
          · have hstep : mapLookup
                (mapInsert buckets m ((mapLookup buckets m).getD [] ++ [dj])) n = some b := by
              rw [mapLookup_mapInsert_ne _ _ _ _ hnm]
              exact hb
            rw [h2 n b hstep]
            have hloc : locatedIn n e = false := by
              simp [locatedIn, he, hn]
              exact fun hmn => absurd hmn.symm hnm
            simp [List.filter_cons, hloc]

/-- C4: after a compilation pass, exactly one publishDiagnostics
notification is emitted per currently known document — in repository
order, not only for the changed one — each carrying exactly the located
diagnostics of that document (so a document without located diagnostics
receives an explicit empty array), and an error lacking a source
location or source name contributes to no document's array.  The
hypothesis states that the engine's located diagnostics refer to the
compiled sources (otherwise an internal assertion fires and nothing is
published). -/
theorem diagnostics_completeness (cf : CompileFn) (st : ServerState)
    (hwf : ∀ e ∈ cf st.sourceUnits, ∀ l, e.loc = some l → ∀ n, l.sourceName = some n →
      diagnosticJson st.sourceUnits e l ≠ none) :
    (compileAndUpdateDiagnostics cf st).exn = none
    ∧ (compileAndUpdateDiagnostics cf st).sent =
        st.sourceUnits.map (fun p =>
          publishFor p.1
            (((cf st.sourceUnits).filter (locatedIn p.1)).filterMap
              (diagnosticJsonOf st.sourceUnits)))
    ∧ (∀ n, ((cf st.sourceUnits).filter (locatedIn n)) = [] →
        ((cf st.sourceUnits).filter (locatedIn n)).filterMap
          (diagnosticJsonOf st.sourceUnits) = [])
    ∧ (∀ e ∈ cf st.sourceUnits,
        (e.loc = none ∨ ∀ l, e.loc = some l → l.sourceName = none) →
        ∀ n, locatedIn n e = false) := by
  obtain ⟨buckets', hbuild, hlook⟩ :=
    buildBuckets_lookup st.sourceUnits (cf st.sourceUnits)
      (st.sourceUnits.map (fun p => (p.1, ([] : List Json)))) hwf
  refine ⟨?_, ?_, fun n h => by rw [h]; rfl, ?_⟩
  · simp only [compileAndUpdateDiagnostics, LanguageServer.compile, hbuild]
  · simp only [compileAndUpdateDiagnostics, LanguageServer.compile, hbuild]
    apply List.map_congr_left
    intro p hp
    have h0 := mapLookup_initBuckets st.sourceUnits p.1 (List.mem_map_of_mem _ hp)
    rw [hlook p.1 [] h0]
    simp
  · intro e he hloc n
    rcases hel : e.loc with _ | l
    · simp [locatedIn, hel]
    · rcases hloc with h | h
      · rw [hel] at h; cases h
      · simp [locatedIn, hel, h l hel]

/-- A compile function producing one error located in `A.sol` and one
error lacking any source location, used as a concrete evaluation. -/
def cfOne : CompileFn := fun _ =>
  [{ loc := some ⟨0, 8, some "A.sol"⟩, severity := .error, typeName := "TypeError",
     errorId := 2072, comment := some "Unused.", secondary := [] },
   { loc := none, severity := .warning, typeName := "Warning",
     errorId := 1, comment := none, secondary := [] }]

/-- Witness for `diagnostics_completeness` on the opened document
`A.sol` with one located and one unlocated diagnostic. -/
theorem diagnostics_completeness_witness :
    (compileAndUpdateDiagnostics cfOne docOpenedA).exn = none
    ∧ (compileAndUpdateDiagnostics cfOne docOpenedA).sent =
        docOpenedA.sourceUnits.map (fun p =>
          publishFor p.1
            (((cfOne docOpenedA.sourceUnits).filter (locatedIn p.1)).filterMap
              (diagnosticJsonOf docOpenedA.sourceUnits))) := by
  have hwf : ∀ e ∈ cfOne docOpenedA.sourceUnits, ∀ l, e.loc = some l →
      ∀ n, l.sourceName = some n →
      diagnosticJson docOpenedA.sourceUnits e l ≠ none := by
    intro e he l hl n hn hcon
    simp only [cfOne, List.mem_cons, List.not_mem_nil, or_false] at he
    rcases he with rfl | rfl
    · cases hl
      exact absurd (congrArg Option.isSome hcon) (by decide)
    · cases hl
  exact ⟨(diagnostics_completeness cfOne docOpenedA hwf).1,
    (diagnostics_completeness cfOne docOpenedA hwf).2.1⟩

/-- The id carried by an outbound message (null for notifications). -/
def Outbound.msgId : Outbound → Json
  | .notifyMsg _ _ => .null
  | .replyMsg id _ => id
  | .errorMsg id _ _ => id

/-- Whether an outbound message is an error carrying InternalError. -/
def Outbound.isInternalError : Outbound → Bool
  | .errorMsg _ .InternalError _ => true
  | _ => false

/-- Diagnostics publication sends only notifications. -/
theorem compileAndUpdateDiagnostics_no_internalError (cf : CompileFn) (st : ServerState) :
    ∀ o ∈ (compileAndUpdateDiagnostics cf st).sent, o.isInternalError = false := by
  intro o ho
  simp only [compileAndUpdateDiagnostics] at ho
  split at ho
  · simp at ho
  · simp only [List.mem_map] at ho
    obtain ⟨p, _, rfl⟩ := ho
    rfl

/-- `handleInitialize` never sends an InternalError. -/
theorem handleInitialize_no_internalError (st : ServerState) (id args : Json) :
    ∀ o ∈ (handleInitialize st id args).sent, o.isInternalError = false := by
  intro o ho
  unfold handleInitialize handleInitializeRest at ho
  repeat' split at ho
  all_goals simp_all [Outbound.isInternalError]

/-- `handleWorkspaceDidChangeConfiguration` sends nothing. -/
theorem didChangeConfiguration_sent_nil (st : ServerState) (args : Json) :
    (handleWorkspaceDidChangeConfiguration st args).sent = [] := by
  unfold handleWorkspaceDidChangeConfiguration
  repeat' split
  all_goals rfl

/-- `handleTextDocumentDidOpen` never sends an InternalError. -/
theorem didOpen_no_internalError (cf : CompileFn) (st : ServerState) (id args : Json) :
    ∀ o ∈ (handleTextDocumentDidOpen cf st id args).sent, o.isInternalError = false := by
  intro o ho
  simp only [handleTextDocumentDidOpen] at ho
  repeat' split at ho
  all_goals
    first
      | (rcases List.mem_append.mp ho with h1 | h2
         · simp_all [Outbound.isInternalError]
         · exact compileAndUpdateDiagnostics_no_internalError cf _ o h2)
      | simp_all [Outbound.isInternalError]

/-- The sends of a failed change loop are never InternalError. -/
theorem didChangeLoop_failed_no_internalError (id : Json) (uri : String)
    (changes : List Json) (st st' : ServerState) (sent : List Outbound)
    (h : didChangeLoop id uri st changes = .failed st' sent) :
    ∀ o ∈ sent, o.isInternalError = false := by
  intro o ho
  obtain ⟨m, hm⟩ := (didChangeLoop_failed_split id uri changes st st' sent h).1
  subst hm
  simp only [List.mem_singleton] at ho
  subst ho
  rfl

/-- `handleTextDocumentDidChange` never sends an InternalError. -/
theorem didChange_no_internalError (cf : CompileFn) (st : ServerState) (id args : Json) :
    ∀ o ∈ (handleTextDocumentDidChange cf st id args).sent, o.isInternalError = false := by
  intro o ho
  simp only [handleTextDocumentDidChange] at ho
  repeat' split at ho
  all_goals
    first
      | (exact didChangeLoop_failed_no_internalError _ _ _ _ _ _ (by assumption) o ho)
      | (exact compileAndUpdateDiagnostics_no_internalError cf _ o ho)
      | simp_all [Outbound.isInternalError]

/-- No handler ever sends an InternalError: that code is produced only
by the catch block of the dispatcher loop. -/
theorem execHandler_no_internalError (cf : CompileFn) (st : ServerState) (id params : Json)
    (h : Handler) :
    ∀ o ∈ (execHandler cf st id params h).sent, o.isInternalError = false := by
  cases h with
  | initializeReq => exact handleInitialize_no_internalError st id params
  | didChangeConfiguration =>
    intro o ho
    rw [show (execHandler cf st id params .didChangeConfiguration).sent =
      (handleWorkspaceDidChangeConfiguration st params).sent from rfl,
      didChangeConfiguration_sent_nil] at ho
    simp at ho
  | didOpen => exact didOpen_no_internalError cf st id params
  | didChange => exact didChange_no_internalError cf st id params
  | cancelRequest => intro o ho; simp [execHandler] at ho
  | exitServer => intro o ho; simp [execHandler] at ho
  | initializedNote => intro o ho; simp [execHandler] at ho
  | shutdownServer => intro o ho; simp [execHandler] at ho
  | didClose => intro o ho; simp [execHandler] at ho

/-- Every InternalError produced by one dispatcher-loop iteration has a
null id. -/
theorem processMessage_internalError_null (cf : CompileFn) (st : ServerState)
    (m : Option Json) :
    ∀ o ∈ (processMessage cf st m).2, o.isInternalError = true → o.msgId = .null := by
  intro o ho hint
  cases m with
  | none =>
    simp only [processMessage, List.mem_singleton] at ho
    subst ho
    rfl
  | some j =>
    simp only [processMessage] at ho
    split at ho
    · simp only [List.mem_singleton] at ho; subst ho; rfl
    · split at ho
      · simp only [List.mem_singleton] at ho; subst ho; rfl
      · split at ho
        · simp only [List.mem_singleton] at ho
          subst ho
          simp [Outbound.isInternalError] at hint
        · split at ho
          · rcases List.mem_append.mp ho with h1 | h2
            · rw [execHandler_no_internalError cf st _ _ _ o h1] at hint
              cases hint
            · simp only [List.mem_singleton] at h2; subst h2; rfl
          · rw [execHandler_no_internalError cf st _ _ _ o ho] at hint
            cases hint

/-- C9: every InternalError emitted by the dispatcher loop carries a
null id, even when the triggering request supplied a non-null id, so a
client correlating replies by id never sees an InternalError as the
reply to its request. -/
theorem run_internalError_null_id (cf : CompileFn) (st : ServerState)
    (msgs : List (Option Json)) :
    ∀ o ∈ (run cf st msgs).2.2, o.isInternalError = true → o.msgId = .null := by
  induction msgs generalizing st with
  | nil => intro o ho; simp [run] at ho
  | cons m rest ih =>
    intro o ho hint
    simp only [run] at ho
    split at ho
    · simp at ho
    · rcases List.mem_append.mp ho with h1 | h2
      · exact processMessage_internalError_null cf st m o h1 hint
      · exact ih _ o h2 hint

/-- A didOpen whose textDocument.text is an array: `asString` throws, so
the handler raises and the loop answers InternalError. -/
def didOpenBadMsg : Json :=
  .obj [("id", .num 5), ("method", .str "textDocument/didOpen"),
    ("params", .obj [("textDocument", .obj [("text", .arr []), ("uri", .str "A.sol")])])]

/-- Witness for `run_internalError_null_id`: a request with id 5 whose
handler throws produces an InternalError that is in the output and
carries a null id. -/
theorem run_internalError_null_id_witness :
    (Outbound.errorMsg .null .InternalError
        "Unhandled exception: type is not convertible to string")
      ∈ (run cfNone initialState [some didOpenBadMsg]).2.2
    ∧ (Outbound.errorMsg .null .InternalError
        "Unhandled exception: type is not convertible to string").msgId = .null :=
  ⟨List.Mem.head _,
   run_internalError_null_id cfNone initialState [some didOpenBadMsg] _ (List.Mem.head _) rfl⟩

/-- C10: a transport-level receive failure (malformed header block,
missing content-length header, or an unparseable body) makes the
transport itself emit one ParseError with null id and return no value,
whereupon the dispatcher loop emits a second ParseError with null id —
two ParseError messages for the single failed message. -/
theorem receive_failure_two_parse_errors
    (parse : String → Except String Json) (input : List Char)
    (cf : CompileFn) (st : ServerState)
    (h : (JSONTransport.receive parse input).msg = none) :
    (∃ m, (JSONTransport.receive parse input).sent = [.errorMsg .null .ParseError m])
    ∧ processMessage cf st none =
        (st, [.errorMsg .null .ParseError "Error parsing JSONRPC request."]) := by
  refine ⟨?_, rfl⟩
  revert h
  unfold JSONTransport.receive
  rcases parseHeaders input [] with ⟨_ | hdrs, rest⟩ <;> dsimp only
  · exact fun _ => ⟨_, rfl⟩
  · rcases mapLookup hdrs "content-length" with _ | v <;> dsimp only
    · exact fun _ => ⟨_, rfl⟩
    · rcases parse (readBytes rest (stoulModel v)).1 with e | j <;> dsimp only
      · exact fun _ => ⟨_, rfl⟩
      · intro h
        simp at h

/-- Witness for `receive_failure_two_parse_errors`: a header line
without a colon fails the header parse. -/
theorem receive_failure_two_parse_errors_witness :
    (∃ m, (JSONTransport.receive (fun _ => .error "syntax error")
        "garbage\n\n".toList).sent = [.errorMsg .null .ParseError m])
    ∧ processMessage cfNone initialState none =
        (initialState, [.errorMsg .null .ParseError "Error parsing JSONRPC request."]) :=
  receive_failure_two_parse_errors (fun _ => .error "syntax error") "garbage\n\n".toList
    cfNone initialState
    (by simp [JSONTransport.receive, parseHeaders, getline, trimChars, isSpaceChar])

/-- C7 (amended): the range actually covering the word `contract`,
(0,0)-(0,8), replaced with `library`, yields the buffer
`library C {}`. -/
theorem didChange_range_0_8_replaces :
    (handleTextDocumentDidChange cfNone docOpenedA (.num 2)
        (didChangeArgs "A.sol"
          [.obj [("range", rangeJson 0 0 0 8), ("text", .str "library")]])).st.sourceUnits
      = [("A.sol", "library C \x7b\x7d")]
    ∧ (handleTextDocumentDidChange cfNone docOpenedA (.num 2)
        (didChangeArgs "A.sol"
          [.obj [("range", rangeJson 0 0 0 8), ("text", .str "library")]])).sent
      = [publishFor "A.sol" []]
    ∧ (handleTextDocumentDidChange cfNone docOpenedA (.num 2)
        (didChangeArgs "A.sol"
          [.obj [("range", rangeJson 0 0 0 8), ("text", .str "library")]])).exn = none :=
  ⟨rfl, rfl, rfl⟩

end SolLsp

